import Mathlib

/-!
Verification development for the factory-agent repository.

The Metrics Engine (`src/metrics.py`) and the Conversation Orchestrator
(`src/main.py`) are embedded shallowly: Python dicts keyed by insertion
order become association lists, Python numbers become `Nat`/`Int`/`ℚ`,
fallible paths (raised exceptions) become `Except`, and the remote
chat-completion endpoint becomes an explicit script of responses consumed
in order.
-/

namespace FactoryAgent

/-! ## Calendar dates (`datetime` fragment used by `get_date_range`) -/

/-- Proleptic-Gregorian leap-year test, as in Python's `datetime`. -/
def isLeapYear (y : Nat) : Bool :=
  y % 4 == 0 && (y % 100 != 0 || y % 400 == 0)

def daysInMonth (y m : Nat) : Nat :=
  if m = 2 then (if isLeapYear y then 29 else 28)
  else if m = 4 ∨ m = 6 ∨ m = 9 ∨ m = 11 then 30
  else 31

/-- A calendar date, the `datetime` values used at midnight only. -/
structure Date where
  year : Nat
  month : Nat
  day : Nat
deriving DecidableEq, Repr

/-- `current + timedelta(days=1)`. -/
def Date.next (d : Date) : Date :=
  if d.day < daysInMonth d.year d.month then ⟨d.year, d.month, d.day + 1⟩
  else if d.month < 12 then ⟨d.year, d.month + 1, 1⟩
  else ⟨d.year + 1, 1, 1⟩

/-- `datetime` comparison `a <= b` (dates at midnight compare lexicographically). -/
def Date.le (a b : Date) : Bool :=
  decide (a.year < b.year ∨ (a.year = b.year ∧
    (a.month < b.month ∨ (a.month = b.month ∧ a.day ≤ b.day))))

def padTo (width : Nat) (n : Nat) : String :=
  let s := toString n
  if s.length < width then String.mk (List.replicate (width - s.length) '0') ++ s else s

/-- `current.strftime("%Y-%m-%d")`. -/
def Date.format (d : Date) : String :=
  padTo 4 d.year ++ "-" ++ padTo 2 d.month ++ "-" ++ padTo 2 d.day

def parseDigits (l : List Char) : Option Nat :=
  if l ≠ [] ∧ l.all Char.isDigit then
    some (l.foldl (fun a c => a * 10 + (c.toNat - 48)) 0)
  else none

/-- Split a character list into the groups between `'-'` separators
(structural recursion, so concrete dates evaluate in the kernel). -/
def splitOnDash : List Char → List (List Char)
  | [] => [[]]
  | c :: cs =>
    match splitOnDash cs with
    | [] => [[]]
    | g :: gs => if c = '-' then [] :: g :: gs else (c :: g) :: gs

/-- `datetime.fromisoformat`, restricted to the `YYYY-MM-DD` shape this
program feeds it: exactly three dash-separated all-digit fields of widths
4-2-2 naming a valid calendar date; any other input raises `ValueError`,
modelled as `.error`. -/
def fromisoformat (s : String) : Except String Date :=
  match splitOnDash s.data with
  | [ys, ms, ds] =>
    if ys.length = 4 ∧ ms.length = 2 ∧ ds.length = 2 then
      match parseDigits ys, parseDigits ms, parseDigits ds with
      | some y, some m, some d =>
        if 1 ≤ y ∧ 1 ≤ m ∧ m ≤ 12 ∧ 1 ≤ d ∧ d ≤ daysInMonth y m then
          .ok ⟨y, m, d⟩
        else .error ("Invalid isoformat string: " ++ s)
      | _, _, _ => .error ("Invalid isoformat string: " ++ s)
    else .error ("Invalid isoformat string: " ++ s)
  | _ => .error ("Invalid isoformat string: " ++ s)

/-- The `while current <= end` loop of `get_date_range`, with fuel.  The fuel
passed by `get_date_range` (366 days per calendar year spanned) always exceeds
the number of iterations, so the loop semantics match the Python `while`. -/
def dateRangeLoop : Nat → Date → Date → List String
  | 0, _, _ => []
  | fuel + 1, current, endD =>
    if Date.le current endD then
      current.format :: dateRangeLoop fuel current.next endD
    else []

/-- `get_date_range(start_date, end_date)` from `src/metrics.py`.
`start_date.split('T')[0]` is the prefix before the first `'T'`.
A date string `fromisoformat` rejects raises `ValueError` (`.error`). -/
def get_date_range (start_date end_date : String) : Except String (List String) := do
  let start ← fromisoformat (String.mk (start_date.data.takeWhile (· ≠ 'T')))
  let endD ← fromisoformat (String.mk (end_date.data.takeWhile (· ≠ 'T')))
  return dateRangeLoop ((endD.year + 1 - start.year) * 366) start endD

/-! ## Data model (`src/data.py` store contents, as read by the metrics) -/

structure DowntimeEvent where
  reason : String
  description : String
  duration_hours : ℚ
deriving DecidableEq, Repr

structure QualityIssue where
  type : String
  description : String
  parts_affected : Nat
  severity : String
deriving DecidableEq, Repr

/-- One per date × machine.  The part counts are the store's nonnegative
integers; hour fields are exact rationals standing for the floats.  The
`shifts` sub-object is never read by the Metrics Engine and is omitted. -/
structure ProductionRecord where
  parts_produced : Nat
  good_parts : Nat
  scrap_parts : Nat
  scrap_rate : ℚ
  uptime_hours : ℚ
  downtime_hours : ℚ
  downtime_events : List DowntimeEvent
  quality_issues : List QualityIssue
deriving DecidableEq, Repr

/-- The loaded store.  The metrics functions only read `data['production']`,
a date-keyed dict of machine-keyed dicts; dicts become association lists in
insertion order.  `load_data()` returning `None` (no file) or a falsy (empty)
document is modelled by `Option.none` at each call site. -/
structure FactoryData where
  production : List (String × List (String × ProductionRecord))
deriving DecidableEq, Repr

/-! ## Metrics Engine (`src/metrics.py`) -/

/-- `[machine_name] if machine_name else day_data.keys()`. -/
def machinesToProcess (day_data : List (String × ProductionRecord))
    (machine_name : Option String) : List String :=
  match machine_name with
  | some m => [m]
  | none => day_data.map (·.1)

/-- The records the inner loop actually processes for one day: each machine in
`machinesToProcess`, skipped silently when absent from `day_data`. -/
def dayRecords (day_data : List (String × ProductionRecord))
    (machine_name : Option String) : List ProductionRecord :=
  (machinesToProcess day_data machine_name).filterMap
    (fun m => List.lookup m day_data)

/-- Same loop, keeping the `(date, machine)` tags alongside each record, as the
loop bodies that mention `date` and `machine` do. -/
def dayEntries (date : String) (day_data : List (String × ProductionRecord))
    (machine_name : Option String) : List (String × String × ProductionRecord) :=
  (machinesToProcess day_data machine_name).filterMap
    (fun m => (List.lookup m day_data).map (fun rec => (date, m, rec)))

/-- `d for d in dates if d in data['production']`. -/
def validDates (d : FactoryData) (dates : List String) : List String :=
  dates.filter (fun dt => (List.lookup dt d.production).isSome)

/-- All `(date, machine, record)` triples the two nested loops visit, in visit
order.  The Python loops accumulate running totals over exactly these. -/
def matchedEntries (d : FactoryData) (valid_dates : List String)
    (machine_name : Option String) : List (String × String × ProductionRecord) :=
  valid_dates.flatMap (fun date =>
    match List.lookup date d.production with
    | none => []
    | some day_data => dayEntries date day_data machine_name)

/-- Round-half-to-even to an integer, Python's `round` tie rule. -/
def roundHalfEven (q : ℚ) : ℤ :=
  if q - ⌊q⌋ < 1 / 2 then ⌊q⌋
  else if 1 / 2 < q - ⌊q⌋ then ⌊q⌋ + 1
  else if ⌊q⌋ % 2 = 0 then ⌊q⌋ else ⌊q⌋ + 1

/-- Python's `round(q, n)` on the exact rational value. -/
def pyRound (q : ℚ) (n : ℕ) : ℚ :=
  (roundHalfEven (q * 10 ^ n) : ℚ) / 10 ^ n

/-- Success payload of `calculate_oee`. -/
structure OeeSuccess where
  oee : ℚ
  availability : ℚ
  performance : ℚ
  quality : ℚ
  total_parts : Nat
  good_parts : Nat
  scrap_parts : Nat
deriving DecidableEq, Repr

/-- `calculate_oee` returns either `{"error": msg}` or the success dict. -/
inductive OeeReturn where
  | error (msg : String)
  | ok (r : OeeSuccess)
deriving DecidableEq, Repr

/-- Body of `calculate_oee` after the store check and date parsing: the
`valid_dates` filter, the aggregation loop (whose four running totals are
the four sums over `matchedEntries`, `total_planned_time` adding 16 per
processed record), the two in-range error returns, and the result dict. -/
def oeeResult (d : FactoryData) (dates : List String)
    (machine_name : Option String) : OeeReturn :=
  let valid_dates := validDates d dates
  if valid_dates = [] then .error "No data for specified date range"
  else
    let recs := (matchedEntries d valid_dates machine_name).map (·.2.2)
    let total_parts : Nat := (recs.map (·.parts_produced)).sum
    let total_good : Nat := (recs.map (·.good_parts)).sum
    let total_uptime : ℚ := (recs.map (·.uptime_hours)).sum
    let total_planned_time : ℚ := 16 * recs.length
    if total_planned_time = 0 then .error "No valid data found"
    else
      let availability : ℚ :=
        if 0 < total_planned_time then total_uptime / total_planned_time else 0
      let quality : ℚ := if 0 < total_parts then (total_good : ℚ) / total_parts else 0
      let performance : ℚ := 95 / 100
      let oee := availability * performance * quality
      .ok
        { oee := pyRound oee 3
          availability := pyRound availability 3
          performance := pyRound performance 3
          quality := pyRound quality 3
          total_parts := total_parts
          good_parts := total_good
          scrap_parts := total_parts - total_good }

/-- `calculate_oee(start_date, end_date, machine_name)` from `src/metrics.py`.
`data` is the `load_data()` result (`none` for a missing or falsy store); the
outer `Except` is a raised `ValueError` from date parsing. -/
def calculate_oee (data : Option FactoryData) (start_date end_date : String)
    (machine_name : Option String) : Except String OeeReturn :=
  match data with
  | none => .ok (.error "No data available")
  | some d => do
    let dates ← get_date_range start_date end_date
    return oeeResult d dates machine_name

/-- Python dict accumulation `d[k] = d.get(k, 0) + v` on an association list:
bump the first entry for `k`, or append a new one. -/
def bumpAssoc {α : Type} [Add α] : List (String × α) → String → α → List (String × α)
  | [], k, v => [(k, v)]
  | (k', v') :: rest, k, v =>
    if k' = k then (k', v' + v) :: rest else (k', v') :: bumpAssoc rest k v

/-- Success payload of `get_scrap_metrics`; `scrap_by_machine = none` models
the key being omitted from the result dict. -/
structure ScrapSuccess where
  total_scrap : Nat
  total_parts : Nat
  scrap_rate : ℚ
  scrap_by_machine : Option (List (String × Nat))
deriving DecidableEq, Repr

inductive ScrapReturn where
  | error (msg : String)
  | ok (r : ScrapSuccess)
deriving DecidableEq, Repr

/-- Body of `get_scrap_metrics` after the store check and date parsing.
`scrap_by_machine` is accumulated only when no machine filter is given, and
the key is included in the result dict only when that dict is truthy
(non-empty). -/
def scrapResult (d : FactoryData) (dates : List String)
    (machine_name : Option String) : ScrapSuccess :=
  let entries := matchedEntries d (validDates d dates) machine_name
  let total_scrap : Nat := (entries.map (·.2.2.scrap_parts)).sum
  let total_parts : Nat := (entries.map (·.2.2.parts_produced)).sum
  let scrap_by_machine : List (String × Nat) :=
    if machine_name.isNone then
      entries.foldl (fun acc e => bumpAssoc acc e.2.1 e.2.2.scrap_parts) []
    else []
  let scrap_rate : ℚ :=
    if 0 < total_parts then (total_scrap : ℚ) / total_parts * 100 else 0
  { total_scrap := total_scrap
    total_parts := total_parts
    scrap_rate := pyRound scrap_rate 2
    scrap_by_machine := if scrap_by_machine = [] then none else some scrap_by_machine }

/-- `get_scrap_metrics(start_date, end_date, machine_name)` from
`src/metrics.py`. -/
def get_scrap_metrics (data : Option FactoryData) (start_date end_date : String)
    (machine_name : Option String) : Except String ScrapReturn :=
  match data with
  | none => .ok (.error "No data available")
  | some d => do
    let dates ← get_date_range start_date end_date
    return .ok (scrapResult d dates machine_name)

/-- A quality issue tagged with its source date and machine
(`{**issue, "date": date, "machine": machine}`). -/
structure TaggedIssue where
  issue : QualityIssue
  date : String
  machine : String
deriving DecidableEq, Repr

structure QualitySuccess where
  issues : List TaggedIssue
  total_issues : Nat
  total_parts_affected : Nat
  severity_breakdown : List (String × Nat)
deriving DecidableEq, Repr

inductive QualityReturn where
  | error (msg : String)
  | ok (r : QualitySuccess)
deriving DecidableEq, Repr

/-- The issues of one processed record that pass the severity filter
(`if severity and issue['severity'] != severity: continue`). -/
def issuesOf (severity : Option String) (e : String × String × ProductionRecord) :
    List TaggedIssue :=
  (e.2.2.quality_issues.filter (fun iss =>
    match severity with
    | some sv => iss.severity == sv
    | none => true)).map (fun iss => ⟨iss, e.1, e.2.1⟩)

/-- Body of `get_quality_issues` after the store check and date parsing. -/
def qualityResult (d : FactoryData) (dates : List String)
    (severity : Option String) (machine_name : Option String) : QualitySuccess :=
  let entries := matchedEntries d (validDates d dates) machine_name
  let issues := entries.flatMap (issuesOf severity)
  let total_parts_affected : Nat := (issues.map (·.issue.parts_affected)).sum
  let severity_breakdown : List (String × Nat) :=
    issues.foldl (fun acc iss => bumpAssoc acc iss.issue.severity 1) []
  { issues := issues
    total_issues := issues.length
    total_parts_affected := total_parts_affected
    severity_breakdown := severity_breakdown }

/-- `get_quality_issues(start_date, end_date, severity, machine_name)` from
`src/metrics.py`. -/
def get_quality_issues (data : Option FactoryData) (start_date end_date : String)
    (severity : Option String) (machine_name : Option String) :
    Except String QualityReturn :=
  match data with
  | none => .ok (.error "No data available")
  | some d => do
    let dates ← get_date_range start_date end_date
    return .ok (qualityResult d dates severity machine_name)

/-- One entry of `major_events`. -/
structure MajorEvent where
  date : String
  machine : String
  reason : String
  description : String
  duration_hours : ℚ
deriving DecidableEq, Repr

structure DowntimeSuccess where
  total_downtime_hours : ℚ
  downtime_by_reason : List (String × ℚ)
  major_events : List MajorEvent
deriving DecidableEq, Repr

inductive DowntimeReturn where
  | error (msg : String)
  | ok (r : DowntimeSuccess)
deriving DecidableEq, Repr

/-- Downtime events of the processed records, tagged with date and machine,
in visit order. -/
def taggedEvents (entries : List (String × String × ProductionRecord)) :
    List (String × String × DowntimeEvent) :=
  entries.flatMap (fun e => e.2.2.downtime_events.map (fun ev => (e.1, e.2.1, ev)))

/-- Body of `get_downtime_analysis` after the store check and date parsing.
Totals per reason are accumulated dict-style; the output dict rounds each
per-reason total to 2 decimals. -/
def downtimeResult (d : FactoryData) (dates : List String)
    (machine_name : Option String) : DowntimeSuccess :=
  let entries := matchedEntries d (validDates d dates) machine_name
  let total_downtime : ℚ := (entries.map (·.2.2.downtime_hours)).sum
  let events := taggedEvents entries
  let downtime_by_reason : List (String × ℚ) :=
    events.foldl (fun acc ev => bumpAssoc acc ev.2.2.reason ev.2.2.duration_hours) []
  let major_events : List MajorEvent :=
    (events.filter (fun ev => 2 < ev.2.2.duration_hours)).map
      (fun ev => ⟨ev.1, ev.2.1, ev.2.2.reason, ev.2.2.description, ev.2.2.duration_hours⟩)
  { total_downtime_hours := pyRound total_downtime 2
    downtime_by_reason := downtime_by_reason.map (fun p => (p.1, pyRound p.2 2))
    major_events := major_events }

/-- `get_downtime_analysis(start_date, end_date, machine_name)` from
`src/metrics.py`. -/
def get_downtime_analysis (data : Option FactoryData) (start_date end_date : String)
    (machine_name : Option String) : Except String DowntimeReturn :=
  match data with
  | none => .ok (.error "No data available")
  | some d => do
    let dates ← get_date_range start_date end_date
    return .ok (downtimeResult d dates machine_name)

/-! ## Tool dispatch (`execute_tool` in `src/main.py`) -/

/-- A parsed tool-argument object conforming to the tool schemas: required
`start_date`/`end_date`, optional `machine_name`, and (for
`get_quality_issues`) optional `severity`.  `execute_tool` splats this dict
as keyword arguments. -/
structure ToolArgs where
  start_date : String
  end_date : String
  machine_name : Option String := none
  severity : Option String := none
deriving DecidableEq, Repr

/-- A tool-execution result dict: one of the four metric payloads, or the
`{"error": "Unknown tool: ..."}` payload from the fallback branch. -/
inductive ToolResult where
  | oeeR (r : OeeReturn)
  | scrapR (r : ScrapReturn)
  | qualityR (r : QualityReturn)
  | downtimeR (r : DowntimeReturn)
  | errorR (msg : String)
deriving DecidableEq, Repr

/-- `execute_tool(tool_name, tool_args)` from `src/main.py`.  The metrics
functions read the store themselves via `load_data()`; that store is the
`data` argument here.  The outer `Except` is a `ValueError` raised out of
date parsing inside a dispatched metrics function. -/
def execute_tool (data : Option FactoryData) (tool_name : String)
    (tool_args : ToolArgs) : Except String ToolResult :=
  if tool_name = "calculate_oee" then
    (calculate_oee data tool_args.start_date tool_args.end_date
      tool_args.machine_name).map .oeeR
  else if tool_name = "get_scrap_metrics" then
    (get_scrap_metrics data tool_args.start_date tool_args.end_date
      tool_args.machine_name).map .scrapR
  else if tool_name = "get_quality_issues" then
    (get_quality_issues data tool_args.start_date tool_args.end_date
      tool_args.severity tool_args.machine_name).map .qualityR
  else if tool_name = "get_downtime_analysis" then
    (get_downtime_analysis data tool_args.start_date tool_args.end_date
      tool_args.machine_name).map .downtimeR
  else
    .ok (.errorR ("Unknown tool: " ++ tool_name))

/-- Lower-casing of a string, `str.lower()` restricted to `Char.toLower`. -/
def lowerStr (s : String) : String :=
  String.mk (s.data.map Char.toLower)

/-! ## Conversation Orchestrator (`_get_chat_response` / `chat` in
`src/main.py`) -/

/-- The raw JSON argument text attached to a model-issued tool call,
abstracted to what `json.loads` does with it: either it parses to a
well-typed argument object, or it is malformed text on which `json.loads`
raises `JSONDecodeError`. -/
inductive ArgSrc where
  | valid (args : ToolArgs)
  | malformed (raw : String)
deriving DecidableEq, Repr

/-- `json.loads(tool_call.function.arguments)` as a fallible function. -/
def json_loads : ArgSrc → Except String ToolArgs
  | .valid args => .ok args
  | .malformed raw => .error raw

structure ToolFunction where
  name : String
  arguments : ArgSrc
deriving DecidableEq, Repr

/-- One entry of an assistant message's `tool_calls`. -/
structure ToolCall where
  id : String
  function : ToolFunction
deriving DecidableEq, Repr

/-- A chat-completion message returned by the endpoint; `tool_calls = []`
models a falsy (`None` or empty) `message.tool_calls`. -/
structure ModelMessage where
  content : Option String
  tool_calls : List ToolCall
deriving DecidableEq, Repr

/-- A transcript message as built by the orchestrator.  The tool message
carries the `ToolResult` that Python stores as `json.dumps(result)`. -/
inductive Message where
  | system (content : String)
  | user (content : String)
  | assistant (content : Option String)
  | assistantToolCalls (m : ModelMessage)
  | tool (tool_call_id : String) (name : String) (content : ToolResult)
deriving DecidableEq, Repr

/-- One endpoint round trip: the call either returns a message or raises a
transport-level exception. -/
inductive ApiResult where
  | ok (m : ModelMessage)
  | transportError (e : String)
deriving DecidableEq, Repr

/-- A fault propagating out of `_get_chat_response`. -/
inductive Fault where
  | transport (e : String)
  | jsonDecode (raw : String)
  | valueError (e : String)
  | endOfScript
deriving DecidableEq, Repr

/-- The `for tool_call in message.tool_calls` loop body: parse the arguments
with `json.loads`, dispatch via `execute_tool`, and build one `tool` message
per call carrying the originating `tool_call_id`, in issue order.  A raised
`JSONDecodeError` or `ValueError` escapes the loop (`Except.error`). -/
def execTools (data : Option FactoryData) :
    List ToolCall → Except Fault (List Message)
  | [] => .ok []
  | tc :: rest => do
    let args ← (json_loads tc.function.arguments).mapError .jsonDecode
    let result ← (execute_tool data tc.function.name args).mapError .valueError
    let ms ← execTools data rest
    return Message.tool tc.id tc.function.name result :: ms

/-- The `while True` loop of `_get_chat_response`, consuming one scripted
endpoint response per iteration.  On a no-tool-call response the new-message
delta (`messages[history_start_index:]` plus the final assistant message) is
returned; on tool calls the assistant message and the tool results are
appended and the loop continues.  `Fault.endOfScript` is a modelling
artifact for a script too short to reach a terminal response. -/
def chatLoop (data : Option FactoryData) (messages : List Message)
    (history_start_index : Nat) : List ApiResult →
    Except Fault (Option String × List Message)
  | [] => .error .endOfScript
  | r :: script => do
    let m ← match r with
      | .transportError e => Except.error (Fault.transport e)
      | .ok m => Except.ok m
    if m.tool_calls = [] then
      let new_history := messages.drop history_start_index ++ [Message.assistant m.content]
      return (m.content, new_history)
    else
      let messages := messages ++ [Message.assistantToolCalls m]
      let toolMsgs ← execTools data m.tool_calls
      chatLoop data (messages ++ toolMsgs) history_start_index script

/-- `_get_chat_response(client, system_prompt, conversation_history,
user_message)` from `src/main.py`, with the endpoint replaced by the response
script.  Returns `(response_text, new_history)` or the propagated fault. -/
def get_chat_response (data : Option FactoryData) (system_prompt : String)
    (conversation_history : List Message) (user_message : String)
    (script : List ApiResult) : Except Fault (Option String × List Message) :=
  let messages := Message.system system_prompt :: conversation_history
    ++ [Message.user user_message]
  let history_start_index := messages.length - 1
  chatLoop data messages history_start_index script

/-- One iteration of the `chat` command's REPL body (`src/main.py`): on
success the new messages are appended to the externally owned
`conversation_history`; any exception is caught, printed, and leaves the
history untouched.  Returns the updated history and the displayed response
text (`none` when the turn failed). -/
def chat_turn (data : Option FactoryData) (system_prompt : String)
    (conversation_history : List Message) (question : String)
    (script : List ApiResult) : List Message × Option (Option String) :=
  match get_chat_response data system_prompt conversation_history question script with
  | .ok (response_text, new_history) =>
    (conversation_history ++ new_history, some response_text)
  | .error _ => (conversation_history, none)

/-! ## Predicates on tool calls and endpoint rounds -/

/-- A tool call whose raw arguments parse and whose dispatch returns without
raising. -/
def cleanCall (data : Option FactoryData) (tc : ToolCall) : Prop :=
  ∃ args res, json_loads tc.function.arguments = .ok args ∧
    execute_tool data tc.function.name args = .ok res

/-- `msg` is the tool-result message the loop body builds for call `tc`. -/
def callMsg (data : Option FactoryData) (tc : ToolCall) (msg : Message) : Prop :=
  ∃ args res, json_loads tc.function.arguments = .ok args ∧
    execute_tool data tc.function.name args = .ok res ∧
    msg = Message.tool tc.id tc.function.name res

/-- A scripted endpoint response that requests tools and whose calls all
execute without raising. -/
def cleanRound (data : Option FactoryData) (r : ApiResult) : Prop :=
  ∃ m, r = .ok m ∧ m.tool_calls ≠ [] ∧ ∀ tc ∈ m.tool_calls, cleanCall data tc

/-! ## Concrete instances for the witnesses -/

/-- A machine-day with two mechanical downtime events of 1.5h and 3.0h. -/
def recA : ProductionRecord :=
  ⟨100, 90, 10, 10, 15, 1,
    [⟨"mechanical", "Mechanical failure", 3 / 2⟩,
     ⟨"mechanical", "Mechanical failure", 3⟩],
    [⟨"surface", "Surface defect", 5, "Medium"⟩]⟩

/-- A clean machine-day. -/
def recB : ProductionRecord := ⟨200, 180, 20, 10, 16, 0, [], []⟩

/-- A one-day store with two machines. -/
def storeA : FactoryData :=
  ⟨[("2024-01-01", [("CNC-001", recA), ("Assembly-001", recB)])]⟩

/-! ## Helper lemmas: dict accumulation -/

theorem lookup_bumpAssoc {α : Type} [AddZeroClass α] (l : List (String × α))
    (k k' : String) (v : α) :
    List.lookup k (bumpAssoc l k' v) =
      if k = k' then some (((List.lookup k' l).getD 0) + v) else List.lookup k l := by
  induction l with
  | nil =>
    by_cases h : k = k'
    · subst h; simp [bumpAssoc]
    · simp [bumpAssoc, List.lookup_cons, beq_false_of_ne h, h]
  | cons p rest ih =>
    obtain ⟨pk, pv⟩ := p
    by_cases hpk : pk = k'
    · subst hpk
      by_cases h : k = pk
      · subst h; simp [bumpAssoc]
      · simp [bumpAssoc, List.lookup_cons, beq_false_of_ne h, h]
    · by_cases h : k = k'
      · subst h
        have hkp : ¬(k = pk) := fun hk => hpk hk.symm
        simp [bumpAssoc, if_neg hpk, List.lookup_cons, beq_false_of_ne hkp, ih]
      · by_cases hkp : k = pk
        · subst hkp
          simp [bumpAssoc, if_neg hpk, List.lookup_cons, h]
        · simp [bumpAssoc, if_neg hpk, List.lookup_cons, beq_false_of_ne hkp, ih, h]

/-- Value found for `k` after dict-accumulating `val x` at key `key x` over
`xs`, starting from `acc` (read through `getD 0`). -/
theorem getD_lookup_foldl_bumpAssoc {α β : Type} [AddMonoid α]
    (key : β → String) (val : β → α) (xs : List β) (acc : List (String × α))
    (k : String) :
    ((xs.foldl (fun a x => bumpAssoc a (key x) (val x)) acc).lookup k).getD 0 =
      ((acc.lookup k).getD 0) + ((xs.filter (fun x => key x == k)).map val).sum := by
  induction xs generalizing acc with
  | nil => simp
  | cons x xs ih =>
    simp only [List.foldl_cons, ih, lookup_bumpAssoc]
    by_cases h : k = key x
    · subst h
      simp [List.filter_cons, add_assoc]
    · have hb : (key x == k) = false := beq_false_of_ne (fun hk => h hk.symm)
      simp [List.filter_cons, hb, if_neg h]

theorem valuesSum_bumpAssoc {α : Type} [AddCommMonoid α] (l : List (String × α))
    (k : String) (v : α) :
    ((bumpAssoc l k v).map (·.2)).sum = (l.map (·.2)).sum + v := by
  induction l with
  | nil => simp [bumpAssoc]
  | cons p rest ih =>
    obtain ⟨pk, pv⟩ := p
    by_cases h : pk = k
    · simp [bumpAssoc, h, add_assoc, add_comm, add_left_comm]
    · simp [bumpAssoc, h, ih, add_assoc, add_comm, add_left_comm]

theorem valuesSum_foldl_bumpAssoc {α β : Type} [AddCommMonoid α]
    (key : β → String) (val : β → α) (xs : List β) (acc : List (String × α)) :
    (((xs.foldl (fun a x => bumpAssoc a (key x) (val x)) acc)).map (·.2)).sum =
      (acc.map (·.2)).sum + (xs.map val).sum := by
  induction xs generalizing acc with
  | nil => simp
  | cons x xs ih =>
    simp [List.foldl_cons, ih, valuesSum_bumpAssoc, add_assoc]

theorem lookup_map_values {α γ : Type} (l : List (String × α)) (f : α → γ)
    (k : String) :
    List.lookup k (l.map (fun p => (p.1, f p.2))) = (List.lookup k l).map f := by
  induction l with
  | nil => simp
  | cons p rest ih =>
    obtain ⟨pk, pv⟩ := p
    by_cases h : k = pk
    · subst h; simp
    · simp [List.lookup_cons, beq_false_of_ne h, ih]

/-! ## Helper lemmas: rounding -/

theorem roundHalfEven_bounds (q : ℚ) :
    ⌊q⌋ ≤ roundHalfEven q ∧ roundHalfEven q ≤ ⌈q⌉ := by
  have hceil : ⌊q⌋ ≤ ⌈q⌉ := Int.floor_le_ceil q
  have hsucc : ¬(q - ⌊q⌋ < 1 / 2) → ⌊q⌋ + 1 ≤ ⌈q⌉ := by
    intro h1
    have hlt : (⌊q⌋ : ℚ) < q := by
      have : (1 : ℚ) / 2 ≤ q - ⌊q⌋ := le_of_not_lt h1
      linarith
    have hfloor_lt : ⌊q⌋ < ⌈q⌉ := by
      by_contra hcon
      push_neg at hcon
      have h1' : (⌈q⌉ : ℚ) ≤ ⌊q⌋ := by exact_mod_cast hcon
      have h2' : q ≤ ⌈q⌉ := Int.le_ceil q
      linarith
    omega
  unfold roundHalfEven
  split_ifs with h1 h2 h3
  · exact ⟨le_refl _, hceil⟩
  · exact ⟨by omega, hsucc h1⟩
  · exact ⟨le_refl _, hceil⟩
  · exact ⟨by omega, hsucc h1⟩

theorem pyRound_nonneg (q : ℚ) (n : ℕ) (h : 0 ≤ q) : 0 ≤ pyRound q n := by
  unfold pyRound
  have hb := (roundHalfEven_bounds (q * 10 ^ n)).1
  have h0 : (0 : ℤ) ≤ ⌊q * 10 ^ n⌋ := by
    apply Int.floor_nonneg.mpr
    positivity
  have : (0 : ℚ) ≤ (roundHalfEven (q * 10 ^ n) : ℚ) := by
    exact_mod_cast le_trans h0 hb
  positivity

theorem pyRound_le_one (q : ℚ) (n : ℕ) (h : q ≤ 1) : pyRound q n ≤ 1 := by
  unfold pyRound
  have hb := (roundHalfEven_bounds (q * 10 ^ n)).2
  have hq : q * 10 ^ n ≤ 10 ^ n := by
    have hpow : (0 : ℚ) < 10 ^ n := by positivity
    nlinarith
  have hceil : ⌈q * 10 ^ n⌉ ≤ 10 ^ n := by
    calc ⌈q * 10 ^ n⌉ ≤ ⌈(10 ^ n : ℚ)⌉ := Int.ceil_le_ceil hq
    _ = 10 ^ n := by
        rw [show ((10 : ℚ) ^ n) = ((10 ^ n : ℤ) : ℚ) by push_cast; ring]
        exact Int.ceil_intCast _
  have hle : (roundHalfEven (q * 10 ^ n) : ℚ) ≤ (10 : ℚ) ^ n := by
    have : roundHalfEven (q * 10 ^ n) ≤ 10 ^ n := le_trans hb hceil
    exact_mod_cast this
  have hpow : (0 : ℚ) < 10 ^ n := by positivity
  rw [div_le_one hpow]
  exact hle

theorem pyRound_zero (n : ℕ) : pyRound 0 n = 0 := by
  unfold pyRound roundHalfEven
  norm_num

/-! ## Helper lemmas: orchestrator loop -/

theorem execTools_forall2 (data : Option FactoryData) (tcs : List ToolCall)
    (h : ∀ tc ∈ tcs, cleanCall data tc) :
    ∃ msgs, execTools data tcs = .ok msgs ∧
      List.Forall₂ (callMsg data) tcs msgs := by
  induction tcs with
  | nil => exact ⟨[], rfl, List.Forall₂.nil⟩
  | cons tc rest ih =>
    obtain ⟨args, res, hj, he⟩ := h tc (List.mem_cons_self tc rest)
    obtain ⟨msgs, hms, hf2⟩ := ih (fun tc' h' => h tc' (List.mem_cons_of_mem _ h'))
    refine ⟨Message.tool tc.id tc.function.name res :: msgs, ?_, ?_⟩
    · simp [execTools, hj, he, hms, Except.bind, bind, Except.mapError, pure, Except.pure]
    · exact List.Forall₂.cons ⟨args, res, hj, he, rfl⟩ hf2

theorem execTools_malformed (data : Option FactoryData) (tcs₁ : List ToolCall)
    (tc : ToolCall) (tcs₂ : List ToolCall) (raw : String)
    (h₁ : ∀ tc' ∈ tcs₁, cleanCall data tc')
    (h : json_loads tc.function.arguments = .error raw) :
    execTools data (tcs₁ ++ tc :: tcs₂) = .error (.jsonDecode raw) := by
  induction tcs₁ with
  | nil => simp [execTools, h, Except.bind, bind, Except.mapError, pure, Except.pure]
  | cons tc' rest ih =>
    obtain ⟨args, res, hj, he⟩ := h₁ tc' (List.mem_cons_self tc' rest)
    have := ih (fun x hx => h₁ x (List.mem_cons_of_mem _ hx))
    simp [execTools, hj, he, this, Except.bind, bind, Except.mapError, pure, Except.pure]

theorem chatLoop_transport (data : Option FactoryData) (messages : List Message)
    (i : Nat) (e : String) (rest : List ApiResult) :
    chatLoop data messages i (.transportError e :: rest) = .error (.transport e) := rfl

theorem chatLoop_terminal (data : Option FactoryData) (messages : List Message)
    (i : Nat) (m : ModelMessage) (rest : List ApiResult) (h : m.tool_calls = []) :
    chatLoop data messages i (.ok m :: rest) =
      .ok (m.content, messages.drop i ++ [Message.assistant m.content]) := by
  simp [chatLoop, h, Except.bind, bind, pure, Except.pure]

theorem chatLoop_toolRound (data : Option FactoryData) (messages : List Message)
    (i : Nat) (m : ModelMessage) (rest : List ApiResult) (msgs : List Message)
    (hne : m.tool_calls ≠ []) (hexec : execTools data m.tool_calls = .ok msgs) :
    chatLoop data messages i (.ok m :: rest) =
      chatLoop data (messages ++ Message.assistantToolCalls m :: msgs) i rest := by
  simp [chatLoop, hne, hexec, Except.bind, bind, pure, Except.pure]

theorem chatLoop_toolFault (data : Option FactoryData) (messages : List Message)
    (i : Nat) (m : ModelMessage) (rest : List ApiResult) (f : Fault)
    (hne : m.tool_calls ≠ []) (hexec : execTools data m.tool_calls = .error f) :
    chatLoop data messages i (.ok m :: rest) = .error f := by
  simp [chatLoop, hne, hexec, Except.bind, bind, pure, Except.pure]

/-- Consuming a prefix of clean tool rounds only grows the working message
list; the loop then continues on the remaining script. -/
theorem chatLoop_cleanPrefix (data : Option FactoryData) (pre : List ApiResult)
    (hpre : ∀ r ∈ pre, cleanRound data r) :
    ∀ (messages : List Message) (i : Nat) (rest : List ApiResult),
      ∃ messages2, chatLoop data messages i (pre ++ rest) =
        chatLoop data messages2 i rest ∧ ∃ extra, messages2 = messages ++ extra := by
  induction pre with
  | nil => exact fun messages i rest => ⟨messages, rfl, [], by simp⟩
  | cons r pre ih =>
    intro messages i rest
    obtain ⟨m, hr, hne, hcalls⟩ := hpre r (List.mem_cons_self r pre)
    subst hr
    obtain ⟨msgs, hexec, _⟩ := execTools_forall2 data m.tool_calls hcalls
    obtain ⟨messages2, heq, extra, hext⟩ :=
      ih (fun x hx => hpre x (List.mem_cons_of_mem _ hx))
        (messages ++ Message.assistantToolCalls m :: msgs) i rest
    refine ⟨messages2, ?_, Message.assistantToolCalls m :: msgs ++ extra, ?_⟩
    · rw [List.cons_append, chatLoop_toolRound data messages i m (pre ++ rest) msgs hne hexec]
      exact heq
    · simp [hext]

/-- A successful turn means some scripted response was terminal (no tool
calls); the returned text is that response's content and the delta ends with
the final assistant message. -/
theorem chatLoop_ok_terminal (data : Option FactoryData) :
    ∀ (script : List ApiResult) (messages : List Message) (i : Nat)
      (t : Option String) (nh : List Message),
      chatLoop data messages i script = .ok (t, nh) →
      ∃ m, ApiResult.ok m ∈ script ∧ m.tool_calls = [] ∧ t = m.content ∧
        nh.getLast? = some (Message.assistant m.content) := by
  intro script
  induction script with
  | nil => intro messages i t nh h; exact absurd h (by simp [chatLoop])
  | cons r rest ih =>
    intro messages i t nh h
    match r with
    | .transportError e => exact absurd h (by simp [chatLoop_transport])
    | .ok m =>
      by_cases hne : m.tool_calls = []
      · rw [chatLoop_terminal data messages i m rest hne] at h
        obtain ⟨h1, h2⟩ := by exact Prod.mk.injEq .. ▸ (Except.ok.injEq .. ▸ h)
        refine ⟨m, by simp, hne, h1.symm, ?_⟩
        rw [← h2]
        simp
      · rcases hexec : execTools data m.tool_calls with f | msgs
        · rw [chatLoop_toolFault data messages i m rest f hne hexec] at h
          exact absurd h (by simp)
        · rw [chatLoop_toolRound data messages i m rest msgs hne hexec] at h
          obtain ⟨m', hmem, hm'⟩ := ih _ i t nh h
          exact ⟨m', List.mem_cons_of_mem _ hmem, hm'⟩

/-! ## Helper lemmas: metrics function shapes -/

theorem calculate_oee_some (d : FactoryData) (s e : String) (mn : Option String)
    (dates : List String) (h : get_date_range s e = .ok dates) :
    calculate_oee (some d) s e mn = .ok (oeeResult d dates mn) := by
  simp [calculate_oee, h, Except.bind, bind, pure, Except.pure]

theorem get_scrap_metrics_some (d : FactoryData) (s e : String) (mn : Option String)
    (dates : List String) (h : get_date_range s e = .ok dates) :
    get_scrap_metrics (some d) s e mn = .ok (.ok (scrapResult d dates mn)) := by
  simp [get_scrap_metrics, h, Except.bind, bind, pure, Except.pure]

theorem get_quality_issues_some (d : FactoryData) (s e : String)
    (sv mn : Option String) (dates : List String) (h : get_date_range s e = .ok dates) :
    get_quality_issues (some d) s e sv mn = .ok (.ok (qualityResult d dates sv mn)) := by
  simp [get_quality_issues, h, Except.bind, bind, pure, Except.pure]

theorem get_downtime_analysis_some (d : FactoryData) (s e : String)
    (mn : Option String) (dates : List String) (h : get_date_range s e = .ok dates) :
    get_downtime_analysis (some d) s e mn = .ok (.ok (downtimeResult d dates mn)) := by
  simp [get_downtime_analysis, h, Except.bind, bind, pure, Except.pure]

theorem oeeResult_error_iff (d : FactoryData) (dates : List String)
    (mn : Option String) :
    (∃ msg, oeeResult d dates mn = .error msg) ↔
      (validDates d dates = [] ∨ matchedEntries d (validDates d dates) mn = []) := by
  unfold oeeResult
  by_cases h1 : validDates d dates = []
  · simp [h1]
  · simp only [if_neg h1]
    by_cases h2 : matchedEntries d (validDates d dates) mn = []
    · simp [h2, h1]
    · have hlen : (matchedEntries d (validDates d dates) mn).length ≠ 0 := by
        simpa [List.length_eq_zero] using h2
      have hplanned : (16 : ℚ) *
          (((matchedEntries d (validDates d dates) mn).map (·.2.2)).length : ℚ) ≠ 0 := by
        simp only [List.length_map]
        intro hc
        rcases mul_eq_zero.mp hc with h16 | hcast
        · norm_num at h16
        · exact hlen (by exact_mod_cast hcast)
      simp [if_neg hplanned, h1, h2]

/-! ## Claim theorems: Metrics Engine -/

/-- C4: `calculate_oee` returns a structured error payload (never a raised
failure) exactly when the store is empty/absent, no date of the range is in
the store, or no `(date, machine)` pair matches the filter; otherwise it
returns the success payload. -/
theorem oee_error_iff_no_data (data : Option FactoryData) (s e : String)
    (mn : Option String) (dates : List String)
    (hd : get_date_range s e = .ok dates) :
    ∃ ret, calculate_oee data s e mn = .ok ret ∧
      ((∃ msg, ret = OeeReturn.error msg) ↔
        (data = none ∨ ∃ d, data = some d ∧
          (validDates d dates = [] ∨ matchedEntries d (validDates d dates) mn = []))) := by
  match data with
  | none =>
    exact ⟨.error "No data available", rfl, by simp⟩
  | some d =>
    refine ⟨oeeResult d dates mn, calculate_oee_some d s e mn dates hd, ?_⟩
    rw [oeeResult_error_iff d dates mn]
    simp

/-- C5: on every non-error `calculate_oee` result, availability is total
uptime over 16 hours per processed machine-day, quality is total good parts
over total parts produced, performance is the constant 0.95, and the reported
`oee` is the rounded product; the reported `oee` lies in `[0, 1]` whenever the
unrounded availability and quality do. -/
theorem oee_formulas_and_bounds (d : FactoryData) (s e : String)
    (mn : Option String) (dates : List String) (r : OeeSuccess)
    (recs : List ProductionRecord) (availability quality : ℚ)
    (hd : get_date_range s e = .ok dates)
    (hr : calculate_oee (some d) s e mn = .ok (.ok r))
    (hrecs : recs = (matchedEntries d (validDates d dates) mn).map (·.2.2))
    (ha : availability = (recs.map (·.uptime_hours)).sum / (16 * (recs.length : ℚ)))
    (hq : quality = (((recs.map (·.good_parts)).sum : ℕ) : ℚ) /
      (((recs.map (·.parts_produced)).sum : ℕ) : ℚ)) :
    r.availability = pyRound availability 3 ∧
    r.quality = pyRound quality 3 ∧
    r.performance = pyRound (95 / 100) 3 ∧
    r.oee = pyRound (availability * (95 / 100) * quality) 3 ∧
    (0 ≤ availability → availability ≤ 1 → 0 ≤ quality → quality ≤ 1 →
      0 ≤ r.oee ∧ r.oee ≤ 1) := by
  rw [calculate_oee_some d s e mn dates hd] at hr
  have hres : oeeResult d dates mn = .ok r := by
    exact Except.ok.inj hr
  unfold oeeResult at hres
  by_cases h1 : validDates d dates = []
  · simp [h1] at hres
  · simp only [if_neg h1] at hres
    by_cases h2 : (16 : ℚ) *
        (((matchedEntries d (validDates d dates) mn).map (·.2.2)).length : ℚ) = 0
    · rw [if_pos h2] at hres
      exact absurd hres (by simp)
    · rw [if_neg h2] at hres
      have hpos : (0 : ℚ) <
          16 * (((matchedEntries d (validDates d dates) mn).map (·.2.2)).length : ℚ) := by
        rcases lt_or_eq_of_le (by positivity :
          (0 : ℚ) ≤ 16 * (((matchedEntries d (validDates d dates) mn).map (·.2.2)).length : ℚ))
          with hlt | heq
        · exact hlt
        · exact absurd heq.symm h2
      have hrr := (OeeReturn.ok.inj hres).symm
      subst hrr
      subst hrecs
      have havail : (if 0 < 16 *
            (((matchedEntries d (validDates d dates) mn).map (·.2.2)).length : ℚ) then
          (((matchedEntries d (validDates d dates) mn).map (·.2.2)).map (·.uptime_hours)).sum /
            (16 * (((matchedEntries d (validDates d dates) mn).map (·.2.2)).length : ℚ))
        else 0) = availability := by
        rw [if_pos hpos, ha]
      have hqual : (if 0 <
            ((((matchedEntries d (validDates d dates) mn).map (·.2.2)).map
              (·.parts_produced)).sum : ℕ) then
          (((((matchedEntries d (validDates d dates) mn).map (·.2.2)).map
              (·.good_parts)).sum : ℕ) : ℚ) /
            (((((matchedEntries d (validDates d dates) mn).map (·.2.2)).map
              (·.parts_produced)).sum : ℕ) : ℚ)
        else 0) = quality := by

        by_cases hp : 0 < ((((matchedEntries d (validDates d dates) mn).map (·.2.2)).map
            (·.parts_produced)).sum : ℕ)
        · rw [if_pos hp, hq]
        · rw [if_neg hp, hq]
          have hz : ((((matchedEntries d (validDates d dates) mn).map (·.2.2)).map
              (·.parts_produced)).sum : ℕ) = 0 := by omega
          rw [hz]
          simp
      refine ⟨?_, ?_, rfl, ?_, ?_⟩
      · simp only [← havail]
      · simp only [← hqual]
      · simp only [← havail, ← hqual]
      · intro ha0 ha1 hq0 hq1
        have hprod0 : 0 ≤ availability * (95 / 100 : ℚ) * quality := by positivity
        have hprod1 : availability * (95 / 100 : ℚ) * quality ≤ 1 := by nlinarith
        constructor
        · show (0 : ℚ) ≤ pyRound _ 3
          simp only [havail, hqual]
          exact pyRound_nonneg _ 3 hprod0
        · show pyRound _ 3 ≤ (1 : ℚ)
          simp only [havail, hqual]
          exact pyRound_le_one _ 3 hprod1

/-- C7: `get_downtime_analysis` accumulates every event's `duration_hours`
into `downtime_by_reason` under its reason (reported rounded to 2 decimals),
and `major_events` is exactly the events with `duration_hours` strictly
greater than 2.0, carrying date, machine, reason, description and duration. -/
theorem downtime_by_reason_and_major_events (d : FactoryData) (s e : String)
    (mn : Option String) (dates : List String) (r : DowntimeSuccess)
    (events : List (String × String × DowntimeEvent))
    (hd : get_date_range s e = .ok dates)
    (hr : get_downtime_analysis (some d) s e mn = .ok (.ok r))
    (hev : events = taggedEvents (matchedEntries d (validDates d dates) mn)) :
    (∀ k, (List.lookup k r.downtime_by_reason).getD 0 =
      pyRound (((events.filter (fun ev => ev.2.2.reason == k)).map
        (·.2.2.duration_hours)).sum) 2) ∧
    r.major_events = (events.filter (fun ev => 2 < ev.2.2.duration_hours)).map
      (fun ev => ⟨ev.1, ev.2.1, ev.2.2.reason, ev.2.2.description,
        ev.2.2.duration_hours⟩) ∧
    (∀ me ∈ r.major_events, 2 < me.duration_hours) ∧
    r.total_downtime_hours =
      pyRound ((matchedEntries d (validDates d dates) mn).map
        (·.2.2.downtime_hours)).sum 2 := by
  rw [get_downtime_analysis_some d s e mn dates hd] at hr
  have hrr : downtimeResult d dates mn = r := DowntimeReturn.ok.inj (Except.ok.inj hr)
  subst hrr
  subst hev
  refine ⟨?_, rfl, ?_, rfl⟩
  · intro k
    show (List.lookup k (((taggedEvents (matchedEntries d (validDates d dates) mn)).foldl
        (fun acc ev => bumpAssoc acc ev.2.2.reason ev.2.2.duration_hours) []).map
          (fun p => (p.1, pyRound p.2 2)))).getD 0 = _
    rw [lookup_map_values _ (fun v => pyRound v 2) k]
    have hsum := getD_lookup_foldl_bumpAssoc (fun ev => ev.2.2.reason)
      (fun ev => ev.2.2.duration_hours)
      (taggedEvents (matchedEntries d (validDates d dates) mn)) [] k
    simp only [List.lookup_nil, Option.getD_none, zero_add] at hsum
    rcases hlk : List.lookup k ((taggedEvents (matchedEntries d (validDates d dates) mn)).foldl
        (fun acc ev => bumpAssoc acc ev.2.2.reason ev.2.2.duration_hours) []) with _ | v
    · rw [hlk] at hsum
      rw [hlk]
      simp only [Option.getD_none] at hsum
      simp only [Option.map_none', Option.getD_none]
      rw [← hsum, pyRound_zero]
    · rw [hlk] at hsum
      rw [hlk]
      simp only [Option.getD_some] at hsum
      simp only [Option.map_some', Option.getD_some]
      rw [hsum]
  · intro me hme
    show 2 < me.duration_hours
    simp only [downtimeResult, List.mem_map, List.mem_filter] at hme
    obtain ⟨ev, ⟨_, hlt⟩, hmk⟩ := hme
    rw [← hmk]
    simpa using hlt

/-- C8: with no machine filter, the per-machine scrap values returned by
`get_scrap_metrics` sum exactly to `total_scrap` (an omitted breakdown, read
as empty, corresponds to a zero total). -/
theorem scrap_by_machine_sums_to_total (d : FactoryData) (s e : String)
    (dates : List String) (r : ScrapSuccess)
    (hd : get_date_range s e = .ok dates)
    (hr : get_scrap_metrics (some d) s e none = .ok (.ok r)) :
    ((r.scrap_by_machine.getD []).map (·.2)).sum = r.total_scrap := by
  rw [get_scrap_metrics_some d s e none dates hd] at hr
  have hrr : scrapResult d dates none = r := ScrapReturn.ok.inj (Except.ok.inj hr)
  subst hrr
  have hsum := valuesSum_foldl_bumpAssoc (fun x => x.2.1)
    (fun x => x.2.2.scrap_parts) (matchedEntries d (validDates d dates) none) []
  simp only [List.map_nil, List.sum_nil, zero_add] at hsum
  simp only [scrapResult, Option.isNone_none, if_pos]
  split_ifs with hem
  · simp only [Option.getD_none, List.map_nil, List.sum_nil]
    rw [hem] at hsum
    simp only [List.map_nil, List.sum_nil] at hsum
    exact hsum
  · simp only [Option.getD_some]
    exact hsum

/-- C9: dispatching any name other than the four registered tools returns,
without raising, the payload with error text containing "unknown"
case-insensitively. -/
theorem unknown_tool_payload (data : Option FactoryData) (tool_name : String)
    (args : ToolArgs)
    (h : tool_name ∉ (["calculate_oee", "get_scrap_metrics", "get_quality_issues",
      "get_downtime_analysis"] : List String)) :
    execute_tool data tool_name args = .ok (.errorR ("Unknown tool: " ++ tool_name)) ∧
    "unknown".data <:+: (lowerStr ("Unknown tool: " ++ tool_name)).data := by
  simp only [List.mem_cons, List.not_mem_nil, or_false, not_or] at h
  obtain ⟨h1, h2, h3, h4⟩ := h
  refine ⟨by simp [execute_tool, h1, h2, h3, h4], ?_⟩
  have hdata : (lowerStr ("Unknown tool: " ++ tool_name)).data
      = "unknown tool: ".data ++ tool_name.data.map Char.toLower := by
    show ("Unknown tool: " ++ tool_name).data.map Char.toLower = _
    rw [String.data_append, List.map_append]
    rfl
  rw [hdata]
  have hpre : "unknown".data <+: "unknown tool: ".data := by decide
  exact (hpre.trans (List.prefix_append _ _)).isInfix

/-- C10: unlike `calculate_oee`, the scrap, quality and downtime operations
return a normal success payload with zero totals and empty collections when
the store is non-empty but nothing in the range matches (`get_scrap_metrics`
then omitting `scrap_by_machine`); only a missing/empty store produces the
`"No data available"` error payload. -/
theorem non_oee_metrics_no_range_error (d : FactoryData) (s e : String)
    (mn sv : Option String) (dates : List String)
    (hd : get_date_range s e = .ok dates)
    (hempty : matchedEntries d (validDates d dates) mn = []) :
    get_scrap_metrics (some d) s e mn = .ok (.ok ⟨0, 0, 0, none⟩) ∧
    get_quality_issues (some d) s e sv mn = .ok (.ok ⟨[], 0, 0, []⟩) ∧
    get_downtime_analysis (some d) s e mn = .ok (.ok ⟨0, [], []⟩) ∧
    get_scrap_metrics none s e mn = .ok (.error "No data available") ∧
    get_quality_issues none s e sv mn = .ok (.error "No data available") ∧
    get_downtime_analysis none s e mn = .ok (.error "No data available") := by
  refine ⟨?_, ?_, ?_, rfl, rfl, rfl⟩
  · rw [get_scrap_metrics_some d s e mn dates hd]
    simp [scrapResult, hempty, pyRound_zero]
  · rw [get_quality_issues_some d s e sv mn dates hd]
    simp [qualityResult, hempty]
  · rw [get_downtime_analysis_some d s e mn dates hd]
    simp [downtimeResult, taggedEvents, hempty, pyRound_zero]

/-! ## Claim theorems: Conversation Orchestrator -/

/-- C1 counterexample: a turn whose only scripted response requests one tool
call with malformed (non-parseable JSON) arguments does not surface a
structured error payload as that call's tool result — the turn aborts with a
propagated decode fault and commits nothing to the history. -/
theorem malformed_args_counterexample :
    get_chat_response none "sys" [] "q"
      [.ok ⟨none, [⟨"call_1", ⟨"calculate_oee", .malformed "not json"⟩⟩]⟩]
      = .error (.jsonDecode "not json") ∧
    chat_turn none "sys" [] "q"
      [.ok ⟨none, [⟨"call_1", ⟨"calculate_oee", .malformed "not json"⟩⟩]⟩]
      = ([], none) := ⟨rfl, rfl⟩

/-- C1 (amended): a tool call whose arguments are malformed JSON is a thrown
fault that aborts the whole turn: after any clean prefix of rounds, the first
malformed call's decode error propagates to the caller and the externally
owned history is left unchanged — no structured payload is appended as that
call's tool result. -/
theorem malformed_args_fault_aborts_turn (data : Option FactoryData)
    (sp : String) (hist : List Message) (um : String)
    (pre rest : List ApiResult) (m : ModelMessage)
    (tcs₁ : List ToolCall) (tc : ToolCall) (tcs₂ : List ToolCall) (raw : String)
    (hpre : ∀ r ∈ pre, cleanRound data r)
    (hm : m.tool_calls = tcs₁ ++ tc :: tcs₂)
    (h₁ : ∀ tc' ∈ tcs₁, cleanCall data tc')
    (hraw : json_loads tc.function.arguments = .error raw) :
    get_chat_response data sp hist um (pre ++ .ok m :: rest)
      = .error (.jsonDecode raw) ∧
    chat_turn data sp hist um (pre ++ .ok m :: rest) = (hist, none) := by
  have hne : m.tool_calls ≠ [] := by
    rw [hm]; exact List.append_ne_nil_of_right_ne_nil _ (List.cons_ne_nil _ _)
  have hexec : execTools data m.tool_calls = .error (.jsonDecode raw) := by
    rw [hm]; exact execTools_malformed data tcs₁ tc tcs₂ raw h₁ hraw
  have hmain : get_chat_response data sp hist um (pre ++ .ok m :: rest)
      = .error (.jsonDecode raw) := by
    unfold get_chat_response
    obtain ⟨messages2, heq, -⟩ := chatLoop_cleanPrefix data pre hpre
      (Message.system sp :: hist ++ [Message.user um])
      ((Message.system sp :: hist ++ [Message.user um]).length - 1) (.ok m :: rest)
    rw [heq, chatLoop_toolFault data messages2 _ m rest _ hne hexec]
  refine ⟨hmain, ?_⟩
  unfold chat_turn
  rw [hmain]

/-- C2: a turn's delta exists only once a terminal (no-tool-call) response is
reached; a transport failure encountered after any clean prefix of tool
rounds propagates to the caller as a fault, and any faulted turn leaves the
externally owned conversation history exactly as it was. -/
theorem transport_failure_no_partial_commit (data : Option FactoryData)
    (sp : String) (hist : List Message) (um : String) :
    (∀ script t nh, get_chat_response data sp hist um script = .ok (t, nh) →
      ∃ m, ApiResult.ok m ∈ script ∧ m.tool_calls = [] ∧ t = m.content ∧
        nh.getLast? = some (Message.assistant m.content)) ∧
    (∀ pre e post, (∀ r ∈ pre, cleanRound data r) →
      get_chat_response data sp hist um (pre ++ .transportError e :: post)
        = .error (.transport e) ∧
      chat_turn data sp hist um (pre ++ .transportError e :: post) = (hist, none)) ∧
    (∀ script f, get_chat_response data sp hist um script = .error f →
      chat_turn data sp hist um script = (hist, none)) := by
  refine ⟨?_, ?_, ?_⟩
  · intro script t nh h
    exact chatLoop_ok_terminal data script _ _ t nh h
  · intro pre e post hpre
    have hmain : get_chat_response data sp hist um (pre ++ .transportError e :: post)
        = .error (.transport e) := by
      unfold get_chat_response
      obtain ⟨messages2, heq, -⟩ := chatLoop_cleanPrefix data pre hpre
        (Message.system sp :: hist ++ [Message.user um])
        ((Message.system sp :: hist ++ [Message.user um]).length - 1)
        (.transportError e :: post)
      rw [heq, chatLoop_transport]
    refine ⟨hmain, ?_⟩
    unfold chat_turn
    rw [hmain]
  · intro script f h
    unfold chat_turn
    rw [h]

/-- C3: when an assistant response carries a non-empty list of tool calls
that all parse and dispatch cleanly, the loop appends exactly one tool
message per call, positionally aligned with the calls in issue order, each
carrying the originating call's `tool_call_id`, and then resubmits. -/
theorem tool_results_ordered_per_call (data : Option FactoryData)
    (m : ModelMessage) (messages : List Message) (i : Nat)
    (rest : List ApiResult) (hne : m.tool_calls ≠ [])
    (h : ∀ tc ∈ m.tool_calls, cleanCall data tc) :
    ∃ msgs, execTools data m.tool_calls = .ok msgs ∧
      msgs.length = m.tool_calls.length ∧
      List.Forall₂ (callMsg data) m.tool_calls msgs ∧
      chatLoop data messages i (.ok m :: rest)
        = chatLoop data (messages ++ Message.assistantToolCalls m :: msgs) i rest := by
  obtain ⟨msgs, hexec, hf2⟩ := execTools_forall2 data m.tool_calls h
  exact ⟨msgs, hexec, hf2.length_eq.symm, hf2,
    chatLoop_toolRound data messages i m rest msgs hne hexec⟩

/-- Dropping everything before `history_start_index` from the initial
transcript leaves exactly the new user message. -/
theorem drop_to_user_message (sp : String) (hist : List Message) (um : String) :
    (Message.system sp :: hist ++ [Message.user um]).drop
      ((Message.system sp :: hist ++ [Message.user um]).length - 1)
      = [Message.user um] := by
  have hlen : (Message.system sp :: hist ++ [Message.user um]).length - 1
      = (Message.system sp :: hist).length := by
    simp
  rw [hlen]
  exact List.drop_left (Message.system sp :: hist) [Message.user um]

/-- C6: a turn whose first response is terminal commits exactly the 2-message
delta `[user, assistant]`; a turn with one single-call tool round commits
exactly the 4-message delta `[user, assistant-with-tool-calls, tool-result,
assistant-final]`, the tool result carrying the requested call's id. -/
theorem turn_delta_two_or_four_messages (data : Option FactoryData) (sp : String)
    (hist : List Message) (um : String) :
    (∀ (c : Option String) (rest : List ApiResult),
      get_chat_response data sp hist um (.ok ⟨c, []⟩ :: rest)
        = .ok (c, [Message.user um, Message.assistant c])) ∧
    (∀ (c1 c2 : Option String) (tc : ToolCall) (args : ToolArgs) (res : ToolResult)
      (rest : List ApiResult),
      json_loads tc.function.arguments = .ok args →
      execute_tool data tc.function.name args = .ok res →
      get_chat_response data sp hist um (.ok ⟨c1, [tc]⟩ :: .ok ⟨c2, []⟩ :: rest)
        = .ok (c2, [Message.user um, Message.assistantToolCalls ⟨c1, [tc]⟩,
            Message.tool tc.id tc.function.name res, Message.assistant c2])) := by
  constructor
  · intro c rest
    unfold get_chat_response
    rw [chatLoop_terminal data _ _ ⟨c, []⟩ rest rfl, drop_to_user_message]
    rfl
  · intro c1 c2 tc args res rest hj he
    unfold get_chat_response
    have hexec : execTools data (⟨c1, [tc]⟩ : ModelMessage).tool_calls
        = .ok [Message.tool tc.id tc.function.name res] := by
      simp [execTools, hj, he, Except.bind, bind, Except.mapError, pure, Except.pure]
    rw [chatLoop_toolRound data _ _ ⟨c1, [tc]⟩ (.ok ⟨c2, []⟩ :: rest) _ (by simp) hexec]
    rw [chatLoop_terminal data _ _ ⟨c2, []⟩ rest rfl]
    rw [List.drop_append_eq_append_drop, drop_to_user_message]
    have hz : (Message.system sp :: hist ++ [Message.user um]).length - 1
        - (Message.system sp :: hist ++ [Message.user um]).length = 0 := by
      omega
    rw [hz]
    simp

/-! ## Witnesses -/

theorem malformed_args_fault_aborts_turn_witness :
    get_chat_response none "sys" [] "q"
      [.ok ⟨none, [⟨"call_9", ⟨"calculate_oee", .malformed "zzz"⟩⟩]⟩]
      = .error (.jsonDecode "zzz") ∧
    chat_turn none "sys" [] "q"
      [.ok ⟨none, [⟨"call_9", ⟨"calculate_oee", .malformed "zzz"⟩⟩]⟩]
      = ([], none) :=
  malformed_args_fault_aborts_turn none "sys" [] "q" [] []
    ⟨none, [⟨"call_9", ⟨"calculate_oee", .malformed "zzz"⟩⟩]⟩
    [] ⟨"call_9", ⟨"calculate_oee", .malformed "zzz"⟩⟩ [] "zzz"
    (fun r hr => absurd hr (List.not_mem_nil r)) rfl
    (fun tc h => absurd h (List.not_mem_nil tc)) rfl

theorem transport_failure_no_partial_commit_witness :
    get_chat_response none "sys" [] "q" [.transportError "boom"]
      = .error (.transport "boom") ∧
    chat_turn none "sys" [] "q" [.transportError "boom"] = ([], none) :=
  (transport_failure_no_partial_commit none "sys" [] "q").2.1 [] "boom" []
    (fun r hr => absurd hr (List.not_mem_nil r))

theorem tool_results_ordered_per_call_witness :
    ∃ msgs, execTools none
      [⟨"id1", ⟨"calculate_oee", .valid ⟨"2024-01-01", "2024-01-02", none, none⟩⟩⟩,
       ⟨"id2", ⟨"mystery_tool", .valid ⟨"a", "b", none, none⟩⟩⟩] = .ok msgs ∧
      msgs.length = 2 ∧
      List.Forall₂ (callMsg none)
        [⟨"id1", ⟨"calculate_oee", .valid ⟨"2024-01-01", "2024-01-02", none, none⟩⟩⟩,
         ⟨"id2", ⟨"mystery_tool", .valid ⟨"a", "b", none, none⟩⟩⟩] msgs := by
  have H := tool_results_ordered_per_call none
    ⟨none, [⟨"id1", ⟨"calculate_oee", .valid ⟨"2024-01-01", "2024-01-02", none, none⟩⟩⟩,
            ⟨"id2", ⟨"mystery_tool", .valid ⟨"a", "b", none, none⟩⟩⟩]⟩
    [] 0 [] (by simp)
    (by
      intro tc htc
      simp only [List.mem_cons, List.not_mem_nil, or_false] at htc
      rcases htc with h | h
      · exact ⟨⟨"2024-01-01", "2024-01-02", none, none⟩,
          .oeeR (.error "No data available"), by subst h; rfl, by subst h; rfl⟩
      · exact ⟨⟨"a", "b", none, none⟩,
          .errorR "Unknown tool: mystery_tool", by subst h; rfl, by subst h; rfl⟩)
  obtain ⟨msgs, hexec, hlen, hf2, -⟩ := H
  exact ⟨msgs, hexec, hlen, hf2⟩

theorem oee_error_iff_no_data_witness :
    get_date_range "2024-01-02" "2024-01-02" = .ok ["2024-01-02"] ∧
    ∃ ret, calculate_oee (some storeA) "2024-01-02" "2024-01-02" none = .ok ret ∧
      ((∃ msg, ret = OeeReturn.error msg) ↔
        (some storeA = none ∨ ∃ d, some storeA = some d ∧
          (validDates d ["2024-01-02"] = [] ∨
            matchedEntries d (validDates d ["2024-01-02"]) none = []))) :=
  ⟨rfl, oee_error_iff_no_data (some storeA) "2024-01-02" "2024-01-02" none
    ["2024-01-02"] rfl⟩

theorem oee_formulas_and_bounds_witness :
    calculate_oee (some storeA) "2024-01-01" "2024-01-01" none
      = .ok (.ok ⟨207 / 250, 969 / 1000, 19 / 20, 9 / 10, 300, 270, 30⟩) ∧
    (0 : ℚ) ≤ 207 / 250 ∧ (207 / 250 : ℚ) ≤ 1 := by
  have hvd : validDates storeA ["2024-01-01"] = ["2024-01-01"] := rfl
  have hent : matchedEntries storeA ["2024-01-01"] none
      = [("2024-01-01", "CNC-001", recA), ("2024-01-01", "Assembly-001", recB)] := rfl
  have hr : calculate_oee (some storeA) "2024-01-01" "2024-01-01" none
      = .ok (.ok ⟨207 / 250, 969 / 1000, 19 / 20, 9 / 10, 300, 270, 30⟩) := by
    rw [calculate_oee_some storeA "2024-01-01" "2024-01-01" none ["2024-01-01"] rfl]
    norm_num [oeeResult, hvd, hent, recA, recB, pyRound, roundHalfEven, Int.fract]
  have hrecs : (matchedEntries storeA (validDates storeA ["2024-01-01"]) none).map (·.2.2)
      = [recA, recB] := rfl
  have H := oee_formulas_and_bounds storeA "2024-01-01" "2024-01-01" none ["2024-01-01"]
    ⟨207 / 250, 969 / 1000, 19 / 20, 9 / 10, 300, 270, 30⟩
    ((matchedEntries storeA (validDates storeA ["2024-01-01"]) none).map (·.2.2))
    _ _ rfl hr rfl rfl rfl
  refine ⟨hr, ?_⟩
  exact H.2.2.2.2
    (by rw [hrecs]; norm_num [recA, recB])
    (by rw [hrecs]; norm_num [recA, recB])
    (by rw [hrecs]; norm_num [recA, recB])
    (by rw [hrecs]; norm_num [recA, recB])

theorem turn_delta_two_or_four_messages_witness :
    get_chat_response none "sys" [] "hello" [.ok ⟨some "one", []⟩]
      = .ok (some "one", [Message.user "hello", Message.assistant (some "one")]) ∧
    get_chat_response none "sys" [] "hello"
      [.ok ⟨none, [⟨"call_1", ⟨"calculate_oee",
          .valid ⟨"2024-01-01", "2024-01-02", none, none⟩⟩⟩]⟩,
       .ok ⟨some "done", []⟩]
      = .ok (some "done", [Message.user "hello",
          Message.assistantToolCalls ⟨none, [⟨"call_1", ⟨"calculate_oee",
            .valid ⟨"2024-01-01", "2024-01-02", none, none⟩⟩⟩]⟩,
          Message.tool "call_1" "calculate_oee" (.oeeR (.error "No data available")),
          Message.assistant (some "done")]) :=
  ⟨(turn_delta_two_or_four_messages none "sys" [] "hello").1 (some "one") [],
   (turn_delta_two_or_four_messages none "sys" [] "hello").2 none (some "done")
     ⟨"call_1", ⟨"calculate_oee", .valid ⟨"2024-01-01", "2024-01-02", none, none⟩⟩⟩
     ⟨"2024-01-01", "2024-01-02", none, none⟩
     (.oeeR (.error "No data available")) [] rfl rfl⟩

theorem downtime_by_reason_and_major_events_witness :
    get_date_range "2024-01-01" "2024-01-01" = .ok ["2024-01-01"] ∧
    ∃ r, get_downtime_analysis (some storeA) "2024-01-01" "2024-01-01" none
        = .ok (.ok r) ∧
      (List.lookup "mechanical" r.downtime_by_reason).getD 0 = 9 / 2 ∧
      r.major_events
        = [⟨"2024-01-01", "CNC-001", "mechanical", "Mechanical failure", 3⟩] := by
  have hr := get_downtime_analysis_some storeA "2024-01-01" "2024-01-01" none
    ["2024-01-01"] rfl
  have H := downtime_by_reason_and_major_events storeA "2024-01-01" "2024-01-01" none
    ["2024-01-01"] (downtimeResult storeA ["2024-01-01"] none)
    (taggedEvents (matchedEntries storeA (validDates storeA ["2024-01-01"]) none))
    rfl hr rfl
  have hev : taggedEvents (matchedEntries storeA (validDates storeA ["2024-01-01"]) none)
      = [("2024-01-01", "CNC-001", ⟨"mechanical", "Mechanical failure", 3 / 2⟩),
         ("2024-01-01", "CNC-001", ⟨"mechanical", "Mechanical failure", 3⟩)] := rfl
  refine ⟨rfl, downtimeResult storeA ["2024-01-01"] none, hr, ?_, ?_⟩
  · rw [H.1 "mechanical", hev]
    norm_num [List.filter_cons, List.filter_nil, pyRound, roundHalfEven, Int.fract]
  · rw [H.2.1, hev]
    norm_num [List.filter_cons, List.filter_nil, decide_eq_true_eq]

theorem scrap_by_machine_sums_to_total_witness :
    get_date_range "2024-01-01" "2024-01-01" = .ok ["2024-01-01"] ∧
    ∃ r, get_scrap_metrics (some storeA) "2024-01-01" "2024-01-01" none = .ok (.ok r) ∧
      ((r.scrap_by_machine.getD []).map (·.2)).sum = r.total_scrap ∧
      r.scrap_by_machine = some [("CNC-001", 10), ("Assembly-001", 20)] ∧
      r.total_scrap = 30 := by
  have hr := get_scrap_metrics_some storeA "2024-01-01" "2024-01-01" none
    ["2024-01-01"] rfl
  exact ⟨rfl, scrapResult storeA ["2024-01-01"] none, hr,
    scrap_by_machine_sums_to_total storeA "2024-01-01" "2024-01-01" ["2024-01-01"]
      (scrapResult storeA ["2024-01-01"] none) rfl hr, rfl, rfl⟩

theorem unknown_tool_payload_witness :
    execute_tool none "nonexistent_tool" ⟨"a", "b", none, none⟩
      = .ok (.errorR ("Unknown tool: " ++ "nonexistent_tool")) ∧
    "unknown".data <:+: (lowerStr ("Unknown tool: " ++ "nonexistent_tool")).data :=
  unknown_tool_payload none "nonexistent_tool" ⟨"a", "b", none, none⟩ (by decide)

theorem non_oee_metrics_no_range_error_witness :
    get_date_range "2024-01-05" "2024-01-05" = .ok ["2024-01-05"] ∧
    matchedEntries storeA (validDates storeA ["2024-01-05"]) none = [] ∧
    get_scrap_metrics (some storeA) "2024-01-05" "2024-01-05" none
      = .ok (.ok ⟨0, 0, 0, none⟩) ∧
    get_quality_issues (some storeA) "2024-01-05" "2024-01-05" none none
      = .ok (.ok ⟨[], 0, 0, []⟩) ∧
    get_downtime_analysis (some storeA) "2024-01-05" "2024-01-05" none
      = .ok (.ok ⟨0, [], []⟩) ∧
    get_scrap_metrics none "2024-01-05" "2024-01-05" none
      = .ok (.error "No data available") := by
  have H := non_oee_metrics_no_range_error storeA "2024-01-05" "2024-01-05" none none
    ["2024-01-05"] rfl rfl
  exact ⟨rfl, rfl, H.1, H.2.1, H.2.2.1, H.2.2.2.1⟩

end FactoryAgent
